import Mathlib

/-!
A shallow embedding of the MEI-to-music21 converter (`music21/mei/base.py`)
together with theorems about its behaviour.

Conventions of the embedding:
* Python numbers used for durations are modelled as rationals (`ℚ`).
* Python dictionaries are modelled as insertion-ordered association lists;
  assignment to an existing key updates it in place, assignment to a new key
  appends it at the end (CPython `dict` semantics).
* Fallible Python code is modelled with `Except PyErr`; each exception class
  that the source can raise is one constructor of `PyErr`.
* Each definition carries the name of the Python function or constant it
  embeds, and is translated from the source, not the prose specification.
-/

/-- Exception kinds raised by the converter or by the Python runtime.
`meiValueError name value` embeds `MeiValueError` with its message
`Unexpected value for "<name>" attribute: <value>`; the constructor carries the
attribute name and offending value that the message names.  `valueError`,
`indexError`, `attributeError` and `typeError` embed the plain Python
exceptions; `durationException` embeds music21's `DurationException`. -/
inductive PyErr where
  | meiValueError (attrName : String) (attrValue : String)
  | meiValidityError (msg : String)
  | meiElementError (tag : String)
  | meiAttributeError (msg : String)
  | valueError
  | indexError
  | attributeError
  | typeError
  | durationException
deriving DecidableEq

instance {ε α : Type} [DecidableEq ε] [DecidableEq α] :
    DecidableEq (Except ε α) := fun x y =>
  match x, y with
  | Except.ok a, Except.ok b =>
    if h : a = b then isTrue (by rw [h]) else isFalse (by simp [h])
  | Except.ok _, Except.error _ => isFalse (by simp)
  | Except.error _, Except.ok _ => isFalse (by simp)
  | Except.error a, Except.error b =>
    if h : a = b then isTrue (by rw [h]) else isFalse (by simp [h])

/-- Lookup in an insertion-ordered association list (Python `dict` read). -/
def assocLookup {α β : Type} [DecidableEq α] : List (α × β) → α → Option β
  | [], _ => none
  | (k, v) :: rest, key => if k = key then some v else assocLookup rest key

/-- Python `dict` assignment `d[k] = v`: update in place if the key exists,
append at the end otherwise. -/
def assocSet {α β : Type} [DecidableEq α] : List (α × β) → α → β → List (α × β)
  | [], k, v => [(k, v)]
  | (k0, v0) :: rest, k, v =>
    if k0 = k then (k0, v) :: rest else (k0, v0) :: assocSet rest k v

theorem assocLookup_assocSet_self {α β : Type} [DecidableEq α]
    (d : List (α × β)) (k : α) (v : β) :
    assocLookup (assocSet d k v) k = some v := by
  induction d with
  | nil => simp [assocSet, assocLookup]
  | cons hd tl ih =>
    obtain ⟨k0, v0⟩ := hd
    by_cases h : k0 = k
    · simp [assocSet, assocLookup, h]
    · simp [assocSet, assocLookup, h, ih]

theorem assocLookup_assocSet_other {α β : Type} [DecidableEq α]
    (d : List (α × β)) (k k2 : α) (v : β) (hne : k2 ≠ k) :
    assocLookup (assocSet d k2 v) k = assocLookup d k := by
  induction d with
  | nil => simp [assocSet, assocLookup, hne]
  | cons hd tl ih =>
    obtain ⟨k0, v0⟩ := hd
    by_cases h : k0 = k2
    · subst h
      simp [assocSet, assocLookup, hne]
    · simp [assocSet, assocLookup, h, ih]

/-! ## `makeDuration` (base.py lines 387-415)

`makeDuration(base, dots)` builds a `Duration` whose `quarterLength` is
`base + sum(float(base) / x for x in [2 ** i for i in range(1, dots + 1)])`.
Only the `quarterLength` and `dots` data of the music21 `Duration` object are
relevant here. -/

/-- The `quarterLength`/`dots` content of a music21 `Duration` object. -/
structure DurationD where
  quarterLength : ℚ
  dots : ℕ
deriving DecidableEq

/-- Embeds `makeDuration(base=0.0, dots=0)` from base.py. -/
def makeDuration (base : ℚ) (dots : ℕ) : DurationD :=
  { quarterLength := base + (Finset.range dots).sum (fun i => base / 2 ^ (i + 1))
    dots := dots }

theorem makeDuration_quarterLength (base : ℚ) (dots : ℕ) :
    (makeDuration base dots).quarterLength = 2 * base - base / 2 ^ dots := by
  induction dots with
  | zero => simp [makeDuration]; ring
  | succ d ih =>
    have hstep : (makeDuration base (d + 1)).quarterLength =
        (makeDuration base d).quarterLength + base / 2 ^ (d + 1) := by
      simp [makeDuration, Finset.sum_range_succ, add_assoc]
    rw [hstep, ih]
    have h2 : (2 : ℚ) ^ d ≠ 0 := by positivity
    have h3 : (2 : ℚ) ^ (d + 1) ≠ 0 := by positivity
    field_simp
    ring

/-- Claim C6 (corrected): when the base value is positive, `makeDuration` with
`dots = 0` returns the base unchanged; each extra dot strictly increases the
quarter length; the quarter length always stays strictly below twice the base;
and it converges to twice the base as the dot count grows. -/
theorem makeDuration_monotone_convergent (base : ℚ) (dots : ℕ) (hbase : 0 < base) :
    (makeDuration base 0).quarterLength = base ∧
    (makeDuration base dots).quarterLength < (makeDuration base (dots + 1)).quarterLength ∧
    (makeDuration base dots).quarterLength < 2 * base ∧
    (∀ ε : ℚ, 0 < ε → ∃ N : ℕ, ∀ d : ℕ, N ≤ d →
      2 * base - (makeDuration base d).quarterLength < ε) := by
  refine ⟨?_, ?_, ?_, ?_⟩
  · simp [makeDuration]
  · rw [makeDuration_quarterLength, makeDuration_quarterLength]
    have hlt : base / 2 ^ (dots + 1) < base / 2 ^ dots := by
      apply div_lt_div_of_pos_left hbase (by positivity)
      exact pow_lt_pow_right₀ one_lt_two (Nat.lt_succ_self dots)
    linarith
  · rw [makeDuration_quarterLength]
    have hpos : 0 < base / 2 ^ dots := by positivity
    linarith
  · intro ε hε
    obtain ⟨N, hN⟩ := exists_nat_gt (base / ε)
    refine ⟨N, fun d hd => ?_⟩
    rw [makeDuration_quarterLength]
    have hpow : (base / ε : ℚ) < 2 ^ d := by
      calc (base / ε : ℚ) < N := hN
        _ ≤ (2 ^ N : ℕ) := by exact_mod_cast (Nat.lt_two_pow N).le
        _ ≤ (2 ^ d : ℕ) := by exact_mod_cast Nat.pow_le_pow_right (by norm_num) hd
        _ = (2 : ℚ) ^ d := by push_cast; ring
    have h2d : (0 : ℚ) < 2 ^ d := by positivity
    have : base / 2 ^ d < ε := by
      rw [div_lt_iff₀ h2d]
      calc base = (base / ε) * ε := by field_simp
        _ < 2 ^ d * ε := by
          exact mul_lt_mul_of_pos_right hpow hε
        _ = ε * 2 ^ d := by ring
    linarith

/-- Witness for the corrected C6 theorem at `base = 2`, `dots = 1`. -/
theorem makeDuration_monotone_convergent_witness :
    (0 : ℚ) < 2 ∧
    ((makeDuration 2 0).quarterLength = 2 ∧
     (makeDuration 2 1).quarterLength < (makeDuration 2 2).quarterLength ∧
     (makeDuration 2 1).quarterLength < 2 * 2 ∧
     (∀ ε : ℚ, 0 < ε → ∃ N : ℕ, ∀ d : ℕ, N ≤ d →
       2 * 2 - (makeDuration 2 d).quarterLength < ε)) :=
  ⟨by norm_num, makeDuration_monotone_convergent 2 1 (by norm_num)⟩

/-- Counterexample to claim C6 as stated: at base value `0` (the default value
of the `base` parameter in the source), increasing the dot count from 0 to 1
does not strictly increase the quarter length. -/
theorem makeDuration_not_strictly_monotone_at_zero :
    (makeDuration 0 1).quarterLength = (makeDuration 0 0).quarterLength ∧
    ¬ (makeDuration 0 0).quarterLength < (makeDuration 0 1).quarterLength := by
  constructor
  · simp [makeDuration]
  · simp [makeDuration]

/-! ## One-to-one translation tables and `_attrTranslator` (base.py lines 467-546)

The tables are CPython dicts with string (or `None`) keys; they are embedded as
association lists over `Option String` keys (`none` embeds the `None` key used
when the attribute is omitted). -/

/-- `_ACCID_ATTR_DICT` from base.py: written accidental codes. -/
def _ACCID_ATTR_DICT : List (Option String × Option String) :=
  [(some "s", some "#"), (some "f", some "-"), (some "ss", some "##"),
   (some "x", some "##"), (some "ff", some "--"), (some "xs", some "###"),
   (some "ts", some "###"), (some "tf", some "---"), (some "n", some "n"),
   (some "nf", some "-"), (some "ns", some "#"), (some "su", some "???"),
   (some "sd", some "???"), (some "fu", some "???"), (some "fd", some "???"),
   (some "nu", some "???"), (some "nd", some "???"), (none, none)]

/-- `_ACCID_GES_ATTR_DICT` from base.py: sounding accidental codes. -/
def _ACCID_GES_ATTR_DICT : List (Option String × Option String) :=
  [(some "s", some "#"), (some "f", some "-"), (some "ss", some "##"),
   (some "ff", some "--"), (some "n", some "n"), (some "su", some "???"),
   (some "sd", some "???"), (some "fu", some "???"), (some "fd", some "???"),
   (none, none)]

/-- `_DUR_ATTR_DICT` from base.py: duration-base codes to quarter lengths.
The `none` entry is the fallback used when `@dur` is omitted. -/
def _DUR_ATTR_DICT : List (Option String × ℚ) :=
  [(some "long", 16), (some "breve", 8), (some "1", 4), (some "2", 2),
   (some "4", 1), (some "8", 1/2), (some "16", 1/4), (some "32", 1/8),
   (some "64", 1/16), (some "128", 1/32), (some "256", 1/64),
   (some "512", 1/128), (some "1024", 1/256), (some "2048", 1/512),
   (none, 1/256)]

/-- The music21 `articulations` classes named by `_ARTIC_ATTR_DICT`. -/
inductive Artic where
  | accent | staccato | tenuto | staccatissimo | strongAccent | spiccato
  | doit | plop | falloff | downBow | upBow | harmonic | snapPizzicato
  | stopped | openString | doubleTongue | organToe | tripleTongue | organHeel
deriving DecidableEq

/-- `_ARTIC_ATTR_DICT` from base.py: articulation codes.  Entries whose Python
value is `None` (not yet implemented in music21) are embedded as `none`. -/
def _ARTIC_ATTR_DICT : List (Option String × Option Artic) :=
  [(some "acc", some Artic.accent), (some "stacc", some Artic.staccato),
   (some "ten", some Artic.tenuto), (some "stacciss", some Artic.staccatissimo),
   (some "marc", some Artic.strongAccent), (some "spicc", some Artic.spiccato),
   (some "doit", some Artic.doit), (some "plop", some Artic.plop),
   (some "fall", some Artic.falloff), (some "dnbow", some Artic.downBow),
   (some "upbow", some Artic.upBow), (some "harm", some Artic.harmonic),
   (some "snap", some Artic.snapPizzicato), (some "stop", some Artic.stopped),
   (some "open", some Artic.openString), (some "dbltongue", some Artic.doubleTongue),
   (some "toe", some Artic.organToe), (some "trpltongue", some Artic.tripleTongue),
   (some "heel", some Artic.organHeel),
   (some "tap", none), (some "lhpizz", none), (some "dot", none),
   (some "stroke", none), (some "rip", none), (some "bend", none),
   (some "flip", none), (some "smear", none), (some "fingernail", none),
   (some "damp", none), (some "dampall", none)]

/-- `_BAR_ATTR_DICT` from base.py: barline codes to music21 barline styles. -/
def _BAR_ATTR_DICT : List (Option String × String) :=
  [(some "dashed", "dashed"), (some "dotted", "dotted"), (some "dbl", "double"),
   (some "end", "final"), (some "invis", "none"), (some "single", "none")]

/-- How Python renders the attribute value inside the `MeiValueError` message
(`None` prints as `None`). -/
def formatAttrValue : Option String → String
  | some s => s
  | none => "None"

/-- Embeds `_attrTranslator(attr, name, mapping)` from base.py: return
`mapping[attr]`, and on a `KeyError` raise `MeiValueError` naming the
attribute and the offending value. -/
def _attrTranslator {β : Type} (attr : Option String) (name : String)
    (mapping : List (Option String × β)) : Except PyErr β :=
  match assocLookup mapping attr with
  | some v => Except.ok v
  | none => Except.error (PyErr.meiValueError name (formatAttrValue attr))

/-- Embeds `_accidentalFromAttr` from base.py. -/
def _accidentalFromAttr (attr : Option String) : Except PyErr (Option String) :=
  _attrTranslator attr "accid" _ACCID_ATTR_DICT

/-- Embeds `_accidGesFromAttr` from base.py. -/
def _accidGesFromAttr (attr : Option String) : Except PyErr (Option String) :=
  _attrTranslator attr "accid.ges" _ACCID_GES_ATTR_DICT

/-- Embeds `_qlDurationFromAttr` from base.py. -/
def _qlDurationFromAttr (attr : Option String) : Except PyErr ℚ :=
  _attrTranslator attr "dur" _DUR_ATTR_DICT

/-- Embeds `_articulationFromAttr` from base.py: `marc-stacc` and `ten-stacc`
expand to two articulations; any other code goes through `_attrTranslator`,
and a `None` table value (an articulation music21 does not implement) would be
called as a class, raising `TypeError`. -/
def _articulationFromAttr (attr : Option String) : Except PyErr (List Artic) :=
  if attr = some "marc-stacc" then
    Except.ok [Artic.strongAccent, Artic.staccato]
  else if attr = some "ten-stacc" then
    Except.ok [Artic.tenuto, Artic.staccato]
  else
    match _attrTranslator attr "artic" _ARTIC_ATTR_DICT with
    | Except.ok (some a) => Except.ok [a]
    | Except.ok none => Except.error PyErr.typeError
    | Except.error e => Except.error e

/-- Python `str.startswith`, computed on the character list so that concrete
instances reduce inside the kernel. -/
def strStartsWith (s pre : String) : Bool :=
  List.isPrefixOf pre.data s.data

/-- Python `str.endswith`, computed on the character list so that concrete
instances reduce inside the kernel. -/
def strEndsWith (s suf : String) : Bool :=
  List.isSuffixOf suf.data s.data

/-- Embeds Python `int(c)` on the single character `signature[0]`: a digit
parses, anything else raises `ValueError`. -/
def pyIntOfChar (c : Char) : Except PyErr Int :=
  if c.isDigit then Except.ok ((c.toNat - 48 : ℕ) : Int)
  else Except.error PyErr.valueError

/-- Embeds `_sharpsFromAttr(signature)` from base.py (lines 634-656): the
key-signature translator.  It is not table-based: `startswith('0')` yields 0,
a trailing `s` yields `int(signature[0])`, anything else yields
`-1 * int(signature[0])`; indexing an empty string raises `IndexError` and a
non-digit first character makes `int()` raise a plain `ValueError`. -/
def _sharpsFromAttr (signature : String) : Except PyErr Int :=
  if strStartsWith signature "0" then Except.ok 0
  else
    match signature.data.head? with
    | none => Except.error PyErr.indexError
    | some c =>
      if strEndsWith signature "s" then pyIntOfChar c
      else (pyIntOfChar c).map (fun n => -n)

/-- True exactly when the computation failed with the `MeiValueError`
(`Unexpected value for ... attribute`) kind. -/
def isMeiValueError {β : Type} : Except PyErr β → Bool
  | Except.error (PyErr.meiValueError _ _) => true
  | _ => false

/-- Claim C5 (corrected): contract of the table-based translators.  For each of
the five lookup tables (written accidental, sounding accidental, duration-base,
articulation, barline), a value that is a key of the table translates to the
table's model value, and a value absent from the table makes `_attrTranslator`
fail with the `MeiValueError` that names the attribute and the offending
value — it never returns normally.  (The key-signature translator
`_sharpsFromAttr` is excluded: it is not table-based; see the counterexample.) -/
theorem attrTranslator_contract (attr : Option String) :
    (∀ v, assocLookup _ACCID_ATTR_DICT attr = some v →
      _accidentalFromAttr attr = Except.ok v) ∧
    (assocLookup _ACCID_ATTR_DICT attr = none →
      _accidentalFromAttr attr =
        Except.error (PyErr.meiValueError "accid" (formatAttrValue attr))) ∧
    (∀ v, assocLookup _ACCID_GES_ATTR_DICT attr = some v →
      _accidGesFromAttr attr = Except.ok v) ∧
    (assocLookup _ACCID_GES_ATTR_DICT attr = none →
      _accidGesFromAttr attr =
        Except.error (PyErr.meiValueError "accid.ges" (formatAttrValue attr))) ∧
    (∀ v, assocLookup _DUR_ATTR_DICT attr = some v →
      _qlDurationFromAttr attr = Except.ok v) ∧
    (assocLookup _DUR_ATTR_DICT attr = none →
      _qlDurationFromAttr attr =
        Except.error (PyErr.meiValueError "dur" (formatAttrValue attr))) ∧
    (∀ v, assocLookup _ARTIC_ATTR_DICT attr = some v →
      _attrTranslator attr "artic" _ARTIC_ATTR_DICT = Except.ok v) ∧
    (assocLookup _ARTIC_ATTR_DICT attr = none →
      _attrTranslator attr "artic" _ARTIC_ATTR_DICT =
        Except.error (PyErr.meiValueError "artic" (formatAttrValue attr))) ∧
    (∀ v, assocLookup _BAR_ATTR_DICT attr = some v →
      _attrTranslator attr "right" _BAR_ATTR_DICT = Except.ok v) ∧
    (assocLookup _BAR_ATTR_DICT attr = none →
      _attrTranslator attr "right" _BAR_ATTR_DICT =
        Except.error (PyErr.meiValueError "right" (formatAttrValue attr))) := by
  refine ⟨?_, ?_, ?_, ?_, ?_, ?_, ?_, ?_, ?_, ?_⟩ <;>
    first
      | (intro v h
         simp [_accidentalFromAttr, _accidGesFromAttr, _qlDurationFromAttr,
               _attrTranslator, h])
      | (intro h
         simp [_accidentalFromAttr, _accidGesFromAttr, _qlDurationFromAttr,
               _attrTranslator, h])

/-- Witness for the C5 contract theorem: a known accidental code translates to
its model value, and a code absent from the duration table fails with the
`MeiValueError` naming `dur` and the code. -/
theorem attrTranslator_contract_witness :
    _accidentalFromAttr (some "s") = Except.ok (some "#") ∧
    _qlDurationFromAttr (some "9") =
      Except.error (PyErr.meiValueError "dur" "9") :=
  ⟨(attrTranslator_contract (some "s")).1 (some "#") (by decide),
   ((attrTranslator_contract (some "9")).2.2.2.2.2.1) (by decide)⟩

/-- Counterexample to claim C5 as stated: the key-signature translator is not
backed by a lookup table, and on the unrecognized value `"q"` it raises a plain
`ValueError` from `int()`, not the `MeiValueError` that names the attribute and
the offending value. -/
theorem sharpsFromAttr_not_table_contract :
    _sharpsFromAttr "q" = Except.error PyErr.valueError ∧
    isMeiValueError (_sharpsFromAttr "q") = false := by
  constructor
  · decide
  · decide

/-! ## Preprocessing: the annotation map, `_ppTies` and `_ppConclude`
(base.py lines 744-778 and 896-932)

`theConverter.m21Attr` is a `defaultdict` from an `@xml:id` to a plain dict
from attribute name to value.  It is embedded as an insertion-ordered
association list of association lists; writing through `m21AttrSet` is the
Python statement `c.m21Attr[xmlid][attr] = value` (a missing outer key starts
from the empty inner dict, as the `defaultdict` does). -/

abbrev AttrDict := List (String × String)
abbrev M21Attr := List (String × AttrDict)

/-- `c.m21Attr[xmlid][attr] = value` on the defaultdict. -/
def m21AttrSet : M21Attr → String → String → String → M21Attr
  | [], xmlid, attr, v => [(xmlid, [(attr, v)])]
  | (id0, d0) :: rest, xmlid, attr, v =>
    if id0 = xmlid then (id0, assocSet d0 attr v) :: rest
    else (id0, d0) :: m21AttrSet rest xmlid attr v

/-- Read `c.m21Attr[xmlid].get(attr)` without creating entries. -/
def m21AttrLookup (m : M21Attr) (xmlid attr : String) : Option String :=
  (assocLookup m xmlid).bind (fun d => assocLookup d attr)

/-- Embeds `removeOctothorpe(xmlid)` from base.py (lines 1202-1215). -/
def removeOctothorpe (xmlid : String) : String :=
  if strStartsWith xmlid "#" then xmlid.drop 1 else xmlid

/-- The `@startid`/`@endid` data of one `<tie>` element. -/
structure TieElem where
  startid : Option String
  endid : Option String

/-- Embeds `_ppTies` (base.py lines 744-778): for each `<tie>` with both
references, write `'i'` at the stripped start id and `'t'` at the stripped end
id under the `tie` attribute; a `<tie>` missing either reference is skipped
(with a warning in the source). -/
def _ppTies (ties : List TieElem) (m21Attr : M21Attr) : M21Attr :=
  ties.foldl (fun m eachTie =>
    match eachTie.startid, eachTie.endid with
    | some s, some e =>
      m21AttrSet (m21AttrSet m (removeOctothorpe s) "tie" "i")
        (removeOctothorpe e) "tie" "t"
    | _, _ => m) m21Attr

/-- An element of the document tree as `_ppConclude` sees it: its `@xml:id`
and its ordered attribute dict. -/
structure XmlElem where
  xmlid : Option String
  attrs : AttrDict
deriving DecidableEq

/-- Embeds the per-element body of `_ppConclude` (base.py lines 926-932): if
the element's `@xml:id` is a key of `m21Attr`, then for each stored attribute
set `elem[attr] = elem.get(attr, '') + value` — appending the stored value to
any value already on the element. -/
def _ppConcludeElem (m21Attr : M21Attr) (e : XmlElem) : XmlElem :=
  match e.xmlid with
  | none => e
  | some xmlid =>
    match assocLookup m21Attr xmlid with
    | none => e
    | some d =>
      { e with attrs := d.foldl (fun attrs kv =>
          assocSet attrs kv.1 ((assocLookup attrs kv.1).getD "" ++ kv.2)) e.attrs }

theorem m21AttrSet_lookup_self (m : M21Attr) (xmlid attr v : String) :
    assocLookup (m21AttrSet m xmlid attr v) xmlid =
      some (assocSet ((assocLookup m xmlid).getD []) attr v) := by
  induction m with
  | nil => simp [m21AttrSet, assocLookup, assocSet]
  | cons hd tl ih =>
    obtain ⟨id0, d0⟩ := hd
    by_cases h : id0 = xmlid
    · simp [m21AttrSet, assocLookup, h]
    · simp [m21AttrSet, assocLookup, h, ih]

theorem m21AttrSet_lookup_other (m : M21Attr) (xmlid xmlid2 attr v : String)
    (hne : xmlid2 ≠ xmlid) :
    assocLookup (m21AttrSet m xmlid2 attr v) xmlid = assocLookup m xmlid := by
  induction m with
  | nil => simp [m21AttrSet, assocLookup, hne]
  | cons hd tl ih =>
    obtain ⟨id0, d0⟩ := hd
    by_cases h : id0 = xmlid2
    · subst h
      simp [m21AttrSet, assocLookup, hne]
    · simp [m21AttrSet, assocLookup, h, ih]

/-- Claim C2 (corrected): when two preprocessing writes target the same
identifier and attribute — here an event `E` that is the end of one `<tie>`
and the start of the next — the second write *overwrites* the first in the
annotation map, which afterwards holds the second value `'i'` alone; the
merging of values happens only in the concluding pass, which appends the
map's value to whatever value the element itself already carries. -/
theorem ppTies_second_write_overwrites (s1 e2 eMid v0 : String)
    (hs : removeOctothorpe s1 ≠ removeOctothorpe eMid)
    (he : removeOctothorpe e2 ≠ removeOctothorpe eMid) :
    m21AttrLookup
      (_ppTies [⟨some s1, some eMid⟩, ⟨some eMid, some e2⟩] []) (removeOctothorpe eMid) "tie"
      = some "i" ∧
    (∀ e : XmlElem, e.xmlid = some (removeOctothorpe eMid) →
      e.attrs = [("tie", v0)] →
      assocLookup
        (_ppConcludeElem (_ppTies [⟨some s1, some eMid⟩, ⟨some eMid, some e2⟩] []) e).attrs
        "tie" = some (v0 ++ "i")) := by
  have hmap : assocLookup
      (_ppTies [⟨some s1, some eMid⟩, ⟨some eMid, some e2⟩] []) (removeOctothorpe eMid)
      = some [("tie", "i")] := by
    simp only [_ppTies, List.foldl]
    rw [m21AttrSet_lookup_other _ _ _ _ _ he, m21AttrSet_lookup_self,
      m21AttrSet_lookup_self, m21AttrSet_lookup_other _ _ _ _ _ hs]
    simp [assocLookup, assocSet]
  constructor
  · simp [m21AttrLookup, hmap, assocLookup]
  · intro e hid hattrs
    obtain ⟨exid, eattrs⟩ := e
    simp only at hid hattrs
    subst hid
    subst hattrs
    simp [_ppConcludeElem, hmap, assocLookup, assocSet]

/-- Witness for the corrected C2 theorem with ids `#s1`, `#E`, `#e2` and an
element whose own `@tie` already holds `"t"`: the map holds `"i"` alone and
the concluded element holds `"ti"`. -/
theorem ppTies_second_write_overwrites_witness :
    removeOctothorpe "#s1" ≠ removeOctothorpe "#E" ∧
    removeOctothorpe "#e2" ≠ removeOctothorpe "#E" ∧
    m21AttrLookup
      (_ppTies [⟨some "#s1", some "#E"⟩, ⟨some "#E", some "#e2"⟩] []) (removeOctothorpe "#E") "tie"
      = some "i" ∧
    assocLookup
      (_ppConcludeElem (_ppTies [⟨some "#s1", some "#E"⟩, ⟨some "#E", some "#e2"⟩] [])
        ⟨some (removeOctothorpe "#E"), [("tie", "t")]⟩).attrs "tie" = some ("t" ++ "i") := by
  have h := ppTies_second_write_overwrites "#s1" "#e2" "#E" "t"
    (by decide) (by decide)
  exact ⟨by decide, by decide, h.1, h.2 ⟨some (removeOctothorpe "#E"), [("tie", "t")]⟩ rfl rfl⟩

/-- Counterexample to claim C2 as stated: for the event `E` that ends the
first tie (value `'t'`) and starts the second (value `'i'`), the annotation
map after `_ppTies` holds the second value `"i"` alone, not the merged
`"ti"`. -/
theorem ppTies_counterexample :
    m21AttrLookup
      (_ppTies [⟨some "#s1", some "#E"⟩, ⟨some "#E", some "#e2"⟩] []) "E" "tie"
      = some "i" ∧
    m21AttrLookup
      (_ppTies [⟨some "#s1", some "#E"⟩, ⟨some "#E", some "#e2"⟩] []) "E" "tie"
      ≠ some "ti" := by
  constructor
  · decide
  · decide

/-! ## `scaleToTuplet` and `_guessTuplets` (base.py lines 1301-1424)

Only the data these two functions read and write is modelled: an object's
duration (its written type and its list of `Tuplet` records) and the three
`m21TupletSearch`/`m21TupletNum`/`m21TupletNumbase` object attributes that the
search branch of `scaleToTuplet` leaves on Note/Rest/Chord objects. -/

/-- The fields of a music21 `duration.Tuplet` that base.py sets. -/
structure Tuplet where
  numberNotesActual : Int
  numberNotesNormal : Int
  durationActual : String
  durationNormal : String
  tupletType : Option String
deriving DecidableEq

/-- The written type and tuplet list of a music21 `Duration`. -/
structure DurationT where
  durType : String
  tuplets : List Tuplet
deriving DecidableEq

/-- The three `m21Tuplet*` object attributes set by `scaleToTuplet`'s search
branch; `m21TupletNum`/`m21TupletNumbase` are the raw attribute strings. -/
structure TupletSearchAttrs where
  m21TupletSearch : String
  m21TupletNum : String
  m21TupletNumbase : String
deriving DecidableEq

/-- An object of a converted `<layer>`, as `_guessTuplets` sees it: Note,
Rest and Chord objects carry a duration and possibly the search attributes;
anything else (e.g. a `Clef`) fails the `isinstance` check and is skipped. -/
inductive LayerObj where
  | noteObj (dur : DurationT) (search : Option TupletSearchAttrs)
  | restObj (dur : DurationT) (search : Option TupletSearchAttrs)
  | chordObj (dur : DurationT) (search : Option TupletSearchAttrs)
  | clefObj
deriving DecidableEq

/-- Decimal parse of a non-empty all-digit character list. -/
def digitsToNat (cs : List Char) : Option ℕ :=
  if cs = [] then none
  else if cs.all Char.isDigit then
    some (cs.foldl (fun acc c => 10 * acc + (c.toNat - 48)) 0)
  else none

/-- Embeds Python `int(s)` on a string (used on `m21TupletNum` and
`m21TupletNumbase`); an unparsable string raises `ValueError`. -/
def pyInt (s : String) : Except PyErr Int :=
  match s.data with
  | '-' :: rest =>
    match digitsToNat rest with
    | some n => Except.ok (-(n : Int))
    | none => Except.error PyErr.valueError
  | cs =>
    match digitsToNat cs with
    | some n => Except.ok (n : Int)
    | none => Except.error PyErr.valueError

/-- The `else` branch of `scaleToTuplet` (base.py lines 1347-1358) as invoked
from `_guessTuplets` with its synthetic element, which carries only
`@m21TupletNum` and `@m21TupletNumbase` (already integers): append a `Tuplet`
whose actual and normal duration categories are the object's own written type;
no `@m21TupletType` or `@tuplet` attribute is present, so the tuplet's type is
left unset. -/
def appendTupletFromSearch (dur : DurationT) (num numbase : Int) : DurationT :=
  { dur with tuplets :=
      dur.tuplets ++ [⟨num, numbase, dur.durType, dur.durType, none⟩] }

/-- The loop state of `_guessTuplets`: `inATuplet` plus the recorded ratio
(`tupletNum`/`tupletNumbase` are only ever read while `inATuplet` holds). -/
structure GuessState where
  inATuplet : Bool
  tupletNum : Option Int
  tupletNumbase : Option Int
deriving DecidableEq

/-- The per-object body of the `_guessTuplets` loop (base.py lines 1394-1422),
for an object that passed the Note/Rest/Chord `isinstance` check.  Returns the
object's updated duration and search attributes together with the new loop
state. -/
def _guessTupletsStep (st : GuessState) (dur : DurationT)
    (search : Option TupletSearchAttrs) :
    Except PyErr (DurationT × Option TupletSearchAttrs × GuessState) := do
  let (st, search) ←
    match search with
    | some a =>
      if a.m21TupletSearch = "start" then do
        let n ← pyInt a.m21TupletNum
        let nb ← pyInt a.m21TupletNumbase
        pure (({ inATuplet := true, tupletNum := some n,
                 tupletNumbase := some nb } : GuessState),
              (none : Option TupletSearchAttrs))
      else pure (st, some a)
    | none => pure (st, none)
  if st.inATuplet then
    let dur := appendTupletFromSearch dur (st.tupletNum.getD 0) (st.tupletNumbase.getD 0)
    match search with
    | some a =>
      if a.m21TupletSearch = "end" then
        match dur.tuplets with
        | [] => Except.error PyErr.indexError
        | t :: ts =>
          pure ({ dur with tuplets := { t with tupletType := some "stop" } :: ts },
                (none : Option TupletSearchAttrs),
                { st with inATuplet := false })
      else pure (dur, some a, st)
    | none => pure (dur, none, st)
  else pure (dur, search, st)

/-- The `_guessTuplets` loop over the layer's objects; objects that are not
Note/Rest/Chord are passed through untouched without breaking the scan. -/
def _guessTupletsGo (st : GuessState) : List LayerObj → Except PyErr (List LayerObj)
  | [] => Except.ok []
  | LayerObj.clefObj :: rest =>
    (_guessTupletsGo st rest).map (fun l => LayerObj.clefObj :: l)
  | LayerObj.noteObj dur search :: rest => do
    let (dur, search, st) ← _guessTupletsStep st dur search
    let tail ← _guessTupletsGo st rest
    pure (LayerObj.noteObj dur search :: tail)
  | LayerObj.restObj dur search :: rest => do
    let (dur, search, st) ← _guessTupletsStep st dur search
    let tail ← _guessTupletsGo st rest
    pure (LayerObj.restObj dur search :: tail)
  | LayerObj.chordObj dur search :: rest => do
    let (dur, search, st) ← _guessTupletsStep st dur search
    let tail ← _guessTupletsGo st rest
    pure (LayerObj.chordObj dur search :: tail)

/-- Embeds `_guessTuplets(theLayer)` from base.py (lines 1366-1424). -/
def _guessTuplets (theLayer : List LayerObj) : Except PyErr (List LayerObj) :=
  _guessTupletsGo ⟨false, none, none⟩ theLayer

/-- The list of tuplet types carried by each object of a layer (one inner list
per object, in order). -/
def layerTupletTypes (theLayer : List LayerObj) : List (List (Option String)) :=
  theLayer.map (fun obj =>
    match obj with
    | LayerObj.noteObj dur _ => dur.tuplets.map (fun t => t.tupletType)
    | LayerObj.restObj dur _ => dur.tuplets.map (fun t => t.tupletType)
    | LayerObj.chordObj dur _ => dur.tuplets.map (fun t => t.tupletType)
    | LayerObj.clefObj => [])

/-- Claim C1 (corrected): in a voice of five notes whose first note carries the
deferred-search marker `start` and whose last carries `end`, both with ratio
num=3 numbase=2, `_guessTuplets` gives every one of the five notes a single
3:2 tuplet whose duration categories are the note's own written type, removes
the search attributes from the endpoints, marks the *last* note's tuplet
`stop` — and leaves the first note's tuplet type unset, exactly like the three
middle notes (the source never assigns a `start` type in this path). -/
theorem guessTuplets_five_note_voice (t1 t2 t3 t4 t5 : String) :
    _guessTuplets
      [LayerObj.noteObj ⟨t1, []⟩ (some ⟨"start", "3", "2"⟩),
       LayerObj.noteObj ⟨t2, []⟩ none,
       LayerObj.noteObj ⟨t3, []⟩ none,
       LayerObj.noteObj ⟨t4, []⟩ none,
       LayerObj.noteObj ⟨t5, []⟩ (some ⟨"end", "3", "2"⟩)] =
    Except.ok
      [LayerObj.noteObj ⟨t1, [⟨3, 2, t1, t1, none⟩]⟩ none,
       LayerObj.noteObj ⟨t2, [⟨3, 2, t2, t2, none⟩]⟩ none,
       LayerObj.noteObj ⟨t3, [⟨3, 2, t3, t3, none⟩]⟩ none,
       LayerObj.noteObj ⟨t4, [⟨3, 2, t4, t4, none⟩]⟩ none,
       LayerObj.noteObj ⟨t5, [⟨3, 2, t5, t5, some "stop"⟩]⟩ none] := by
  rfl

/-- Counterexample to claim C1 as stated, at five eighth notes: the resolved
tuplet types are `[none, none, none, none, stop]` — the first note's tuplet
type is *not* `start`. -/
theorem guessTuplets_first_note_not_start :
    (_guessTuplets
      [LayerObj.noteObj ⟨"eighth", []⟩ (some ⟨"start", "3", "2"⟩),
       LayerObj.noteObj ⟨"eighth", []⟩ none,
       LayerObj.noteObj ⟨"eighth", []⟩ none,
       LayerObj.noteObj ⟨"eighth", []⟩ none,
       LayerObj.noteObj ⟨"eighth", []⟩ (some ⟨"end", "3", "2"⟩)]).map layerTupletTypes
      = Except.ok [[none], [none], [none], [none], [some "stop"]] ∧
    (_guessTuplets
      [LayerObj.noteObj ⟨"eighth", []⟩ (some ⟨"start", "3", "2"⟩),
       LayerObj.noteObj ⟨"eighth", []⟩ none,
       LayerObj.noteObj ⟨"eighth", []⟩ none,
       LayerObj.noteObj ⟨"eighth", []⟩ none,
       LayerObj.noteObj ⟨"eighth", []⟩ (some ⟨"end", "3", "2"⟩)]).map layerTupletTypes
      ≠ Except.ok [[some "start"], [none], [none], [none], [some "stop"]] := by
  constructor
  · rfl
  · decide

/-! ## `beamTogether` (base.py lines 1169-1199)

An object is modelled by whether it has a `beams` attribute (music21
Note/Chord do, e.g. a `Clef` does not), its written duration type, and its
list of beams (each beam reduced to its `type` string).  `beams.fill(t, b)`
creates one beam per beam level of the written type, all with type `b`;
`beams.setAll('stop')` sets every present beam's type to `'stop'`. -/

/-- A member of the iterable handed to `beamTogether`. -/
inductive BThing where
  | withBeams (durType : String) (beams : List String)
  | noBeams (durType : String)
deriving DecidableEq

/-- music21 `duration.convertTypeToNumber`: the type number of a written
duration type (`'quarter' ↦ 4`, `'eighth' ↦ 8`, ...); an unknown type raises
`DurationException`, modelled as `none`. -/
def convertTypeToNumber (durType : String) : Option ℚ :=
  assocLookup
    [("maxima", 1/8), ("longa", 1/4), ("breve", 1/2), ("whole", 1),
     ("half", 2), ("quarter", 4), ("eighth", 8), ("16th", 16),
     ("32nd", 32), ("64th", 64), ("128th", 128), ("256th", 256),
     ("512th", 512), ("1024th", 1024), ("2048th", 2048), ("zero", 0)]
    durType

/-- Number of beam levels music21 `Beams.fill` creates for a written type
(defined for types finer than a quarter note). -/
def beamLevels (durType : String) : Option ℕ :=
  assocLookup
    [("eighth", 1), ("16th", 2), ("32nd", 3), ("64th", 4),
     ("128th", 5), ("256th", 6), ("512th", 7), ("1024th", 8), ("2048th", 9)]
    durType

/-- The `for i, thing in enumerate(someThings)` loop of `beamTogether`:
returns the updated list together with `iLastBeamedNote`. -/
def beamTogetherGo (acc : List BThing) (i : ℕ) (iLast : Int) :
    List BThing → Except PyErr (List BThing × Int)
  | [] => Except.ok (acc.reverse, iLast)
  | BThing.noBeams dt :: rest => beamTogetherGo (BThing.noBeams dt :: acc) (i + 1) iLast rest
  | BThing.withBeams dt bs :: rest =>
    let beamType := if iLast = -1 then "start" else "continue"
    match convertTypeToNumber dt with
    | none => Except.error PyErr.durationException
    | some q =>
      if 4 < q ∧ bs = [] then
        match beamLevels dt with
        | none => Except.error PyErr.durationException
        | some lvl =>
          beamTogetherGo
            (BThing.withBeams dt (List.replicate lvl beamType) :: acc)
            (i + 1) (Int.ofNat i) rest
      else beamTogetherGo (BThing.withBeams dt bs :: acc) (i + 1) iLast rest

/-- Python list indexing `someThings[i]` including negative indices; `none`
models the `IndexError`. -/
def pyIndex (i : Int) (len : ℕ) : Option ℕ :=
  if 0 ≤ i then (if i < (len : Int) then some i.toNat else none)
  else (if 0 ≤ (len : Int) + i then some ((len : Int) + i).toNat else none)

/-- Embeds `beamTogether(someThings)` from base.py (lines 1169-1199): run the
loop, then execute `someThings[iLastBeamedNote].beams.setAll('stop')`, which
hits `someThings[-1]` — the *last* element — when nothing was beamed; it
raises `IndexError` on an empty list and `AttributeError` when the indexed
object has no `beams` attribute. -/
def beamTogether (someThings : List BThing) : Except PyErr (List BThing) := do
  let (things, iLast) ← beamTogetherGo [] 0 (-1) someThings
  match pyIndex iLast things.length with
  | none => Except.error PyErr.indexError
  | some k =>
    match things[k]? with
    | some (BThing.withBeams dt bs) =>
      Except.ok (things.set k (BThing.withBeams dt (bs.map (fun _ => "stop"))))
    | some (BThing.noBeams _) => Except.error PyErr.attributeError
    | none => Except.error PyErr.indexError

/-- Claim C4 (confirmed): five eighth notes are beamed
start/continue/continue/continue/stop; appending a half note (type number not
above 4) leaves the half note untouched and keeps the same assignment on the
five eighth notes. -/
theorem beamTogether_five_eighths :
    beamTogether
      [BThing.withBeams "eighth" [], BThing.withBeams "eighth" [],
       BThing.withBeams "eighth" [], BThing.withBeams "eighth" [],
       BThing.withBeams "eighth" []] =
      Except.ok
        [BThing.withBeams "eighth" ["start"], BThing.withBeams "eighth" ["continue"],
         BThing.withBeams "eighth" ["continue"], BThing.withBeams "eighth" ["continue"],
         BThing.withBeams "eighth" ["stop"]] ∧
    beamTogether
      [BThing.withBeams "eighth" [], BThing.withBeams "eighth" [],
       BThing.withBeams "eighth" [], BThing.withBeams "eighth" [],
       BThing.withBeams "eighth" [], BThing.withBeams "half" []] =
      Except.ok
        [BThing.withBeams "eighth" ["start"], BThing.withBeams "eighth" ["continue"],
         BThing.withBeams "eighth" ["continue"], BThing.withBeams "eighth" ["continue"],
         BThing.withBeams "eighth" ["stop"], BThing.withBeams "half" []] := by
  constructor
  · rfl
  · rfl

/-- An object `beamTogether` will not beam: either it has no `beams`
attribute, or its type number is defined and the object fails the
`> 4 and len(beams) == 0` test. -/
def beamIneligible : BThing → Prop
  | BThing.noBeams _ => True
  | BThing.withBeams dt bs =>
    ∃ q, convertTypeToNumber dt = some q ∧ ¬(4 < q ∧ bs = [])

theorem beamTogetherGo_all_ineligible (things : List BThing)
    (h : ∀ t ∈ things, beamIneligible t) :
    ∀ (acc : List BThing) (i : ℕ),
      beamTogetherGo acc i (-1) things = Except.ok (acc.reverse ++ things, -1) := by
  induction things with
  | nil => intro acc i; simp [beamTogetherGo]
  | cons hd tl ih =>
    intro acc i
    have htl : ∀ t ∈ tl, beamIneligible t := fun t ht => h t (List.mem_cons_of_mem _ ht)
    cases hd with
    | noBeams dt =>
      rw [beamTogetherGo, ih htl]
      simp
    | withBeams dt bs =>
      obtain ⟨q, hq, hnot⟩ := h _ (List.mem_cons_self _ _)
      rw [beamTogetherGo]
      simp only [hq, if_neg hnot]
      rw [ih htl]
      simp

theorem pyIndex_neg_one (n : ℕ) (h : 1 ≤ n) : pyIndex (-1) n = some (n - 1) := by
  have h0 : ¬ (0 : Int) ≤ -1 := by norm_num
  have h1 : (0 : Int) ≤ (n : Int) + (-1) := by omega
  simp only [pyIndex, if_neg h0, if_pos h1]
  congr 1
  omega

theorem list_set_last_eq {α : Type} (l : List α) (x : α) (h : l ≠ []) :
    l.set (l.length - 1) x = l.dropLast ++ [x] := by
  induction l with
  | nil => exact absurd rfl h
  | cons hd tl ih =>
    cases tl with
    | nil => simp
    | cons hd2 tl2 =>
      have : (hd :: hd2 :: tl2).length - 1 = (hd2 :: tl2).length - 1 + 1 := by
        simp
      rw [this, List.set]
      rw [ih (by simp)]
      simp

/-- Claim C9 (confirmed): on a non-empty sequence none of whose members is
beam-eligible, `beamTogether` still executes `someThings[-1].beams.setAll`:
the loop leaves every element unmodified and `iLastBeamedNote = -1`, so the
*last* element has every beam it carries set to `'stop'` when it has a
`beams` attribute, `AttributeError` is raised when it has none, and on an
empty sequence `IndexError` is raised — the elements are not all left
untouched. -/
theorem beamTogether_no_eligible (someThings : List BThing)
    (hne : someThings ≠ [])
    (hinel : ∀ t ∈ someThings, beamIneligible t) :
    (∀ dt bs, someThings.getLast hne = BThing.withBeams dt bs →
       beamTogether someThings =
         Except.ok (someThings.dropLast ++
           [BThing.withBeams dt (bs.map (fun _ => "stop"))])) ∧
    (∀ dt, someThings.getLast hne = BThing.noBeams dt →
       beamTogether someThings = Except.error PyErr.attributeError) ∧
    beamTogether [] = Except.error PyErr.indexError := by
  have hlen : 1 ≤ someThings.length := by
    cases someThings with
    | nil => exact absurd rfl hne
    | cons hd tl => simp
  have hgo := beamTogetherGo_all_ineligible someThings hinel [] 0
  have hget : someThings[someThings.length - 1]? = some (someThings.getLast hne) := by
    rw [← List.getLast?_eq_getElem?, List.getLast?_eq_getLast _ hne]
  refine ⟨?_, ?_, by rfl⟩
  · intro dt bs hlast
    rw [beamTogether]
    simp only [hgo, List.reverse_nil, List.nil_append, Bind.bind, Except.bind,
      pyIndex_neg_one _ hlen, hget, hlast]
    rw [list_set_last_eq _ _ hne]
  · intro dt hlast
    rw [beamTogether]
    simp only [hgo, List.reverse_nil, List.nil_append, Bind.bind, Except.bind,
      pyIndex_neg_one _ hlen, hget, hlast]

/-- Witness for the C9 theorem: a single object with no `beams` attribute
makes the final `setAll` raise `AttributeError`. -/
theorem beamTogether_no_eligible_witness :
    beamTogether [BThing.noBeams "zero"] = Except.error PyErr.attributeError :=
  (beamTogether_no_eligible [BThing.noBeams "zero"] (by decide)
    (fun t ht => by
      rw [List.mem_singleton] at ht
      subst ht
      exact trivial)).2.1 "zero" rfl

/-! ## `_correctMRestDurs` and the measure-length branch of `measureFromElement`
(base.py lines 2563-2587 and 2669-2703)

A staff's `Measure` holds items (Voices and non-Stream objects) and a
duration; a Voice holds rest-like objects, each with a quarter length and the
`m21wasMRest` placeholder tag that `mRestFromElement` sets when `@dur` was
absent (such a rest was built from `_DUR_ATTR_DICT[None]`). -/

/-- A rest-like object inside a voice: its quarter length and whether it
carries the `m21wasMRest` placeholder tag. -/
structure RestObjM where
  quarterLength : ℚ
  m21wasMRest : Bool
deriving DecidableEq

/-- A music21 `Voice` inside a staff's measure. -/
structure VoiceM where
  objs : List RestObjM
  vDuration : ℚ
deriving DecidableEq

/-- An item of a staff's `Measure`: a `Voice`, or some non-Stream object that
the `isinstance(eachVoice, stream.Stream)` check skips. -/
inductive MeasureItem where
  | voiceItem (v : VoiceM)
  | nonStreamItem
deriving DecidableEq

/-- A staff's `Measure`: its items and its duration. -/
structure MeasureM where
  items : List MeasureItem
  mDuration : ℚ
deriving DecidableEq

/-- `_DUR_ATTR_DICT[None]`: the fallback quarter length a rest receives when
`@dur` is absent. -/
def durAttrNone : ℚ := 1 / 256

/-- One voice pass of `_correctMRestDurs`: every object tagged `m21wasMRest`
has its quarter length set to the target and the tag removed; if any object
was tagged, the voice's duration is also set to the target. -/
def correctVoice (targetLength : ℚ) (v : VoiceM) : VoiceM × Bool :=
  let flagged := v.objs.any (fun o => o.m21wasMRest)
  ({ objs := v.objs.map (fun o =>
       if o.m21wasMRest then { quarterLength := targetLength, m21wasMRest := false } else o)
     vDuration := if flagged then targetLength else v.vDuration },
   flagged)

/-- Embeds `_correctMRestDurs(staves, targetLength)` from base.py (lines
2563-2587): iterate every staff's measure, skip non-Stream items, fix every
tagged object, and set the voice and measure durations to the target whenever
a tagged object was found in them. -/
def _correctMRestDurs (staves : List (String × MeasureM)) (targetLength : ℚ) :
    List (String × MeasureM) :=
  staves.map (fun p =>
    let results := p.2.items.map (fun it =>
      match it with
      | MeasureItem.voiceItem v =>
        ((MeasureItem.voiceItem (correctVoice targetLength v).1 : MeasureItem),
         (correctVoice targetLength v).2)
      | MeasureItem.nonStreamItem => (MeasureItem.nonStreamItem, false))
    (p.1,
     { items := results.map Prod.fst
       mDuration := if results.any Prod.snd then targetLength else p.2.mDuration }))

/-- The `maxBarDuration` accumulation of `measureFromElement` (base.py lines
2670-2679), over the staves built from `<staff>` children in document order. -/
def computeMaxBarDuration (staves : List (String × MeasureM)) : Option ℚ :=
  staves.foldl (fun acc p =>
    match acc with
    | none => some p.2.mDuration
    | some m => if m < p.2.mDuration then some p.2.mDuration else acc) none

/-- Embeds the full-measure-rest correction branch of `measureFromElement`
(base.py lines 2693-2703): when the longest bar duration equals
`_DUR_ATTR_DICT[None]` (every staff is an `<mRest>` placeholder), the active
meter is known, and the meter disagrees, correct with the meter's total
length; otherwise correct with the longest bar duration found.  (When
`staves` is empty, `maxBarDuration` is `None` and `_correctMRestDurs` iterates
nothing, so the `getD` default is never read.) -/
def correctMRestStep (staves : List (String × MeasureM))
    (activeMeterTotalLength : Option ℚ) : List (String × MeasureM) :=
  let maxBarDuration := computeMaxBarDuration staves
  match activeMeterTotalLength with
  | some totalLength =>
    if maxBarDuration = some durAttrNone ∧ maxBarDuration ≠ some totalLength then
      _correctMRestDurs staves totalLength
    else
      _correctMRestDurs staves (maxBarDuration.getD 0)
  | none => _correctMRestDurs staves (maxBarDuration.getD 0)

/-- Claim C3 (confirmed): in a measure where staff A has an explicit voice
duration `dA` (longer than the placeholder default) and staff B holds only a
placeholder full-measure rest, the correction sets B's rest, voice and
measure durations to `dA` — the longest explicit duration found — and not to
the prevailing meter's length, whatever that meter is; staff A is left
unchanged. -/
theorem correctMRest_uses_longest_explicit (dA meterLength : ℚ)
    (hlt : durAttrNone < dA) :
    correctMRestStep
      [("A", ⟨[MeasureItem.voiceItem ⟨[⟨dA, false⟩], dA⟩], dA⟩),
       ("B", ⟨[MeasureItem.voiceItem ⟨[⟨durAttrNone, true⟩], durAttrNone⟩], durAttrNone⟩)]
      (some meterLength) =
      [("A", ⟨[MeasureItem.voiceItem ⟨[⟨dA, false⟩], dA⟩], dA⟩),
       ("B", ⟨[MeasureItem.voiceItem ⟨[⟨dA, false⟩], dA⟩], dA⟩)] := by
  have hmax : computeMaxBarDuration
      [("A", ⟨[MeasureItem.voiceItem ⟨[⟨dA, false⟩], dA⟩], dA⟩),
       ("B", ⟨[MeasureItem.voiceItem ⟨[⟨durAttrNone, true⟩], durAttrNone⟩], durAttrNone⟩)]
      = some dA := by
    simp [computeMaxBarDuration, not_lt.mpr hlt.le]
  have hne : ¬ ((some dA = some durAttrNone) ∧ some dA ≠ some meterLength) := by
    intro hcon
    exact absurd (Option.some.inj hcon.1) hlt.ne'
  rw [correctMRestStep]
  simp only [hmax, if_neg hne, Option.getD_some]
  simp [_correctMRestDurs, correctVoice]

/-- Witness for the C3 theorem at the spec's own numbers: a 4-beat explicit
rest against a 3/4 meter (total length 3) — the placeholder becomes 4 beats,
not 3. -/
theorem correctMRest_uses_longest_explicit_witness :
    durAttrNone < (4 : ℚ) ∧
    correctMRestStep
      [("A", ⟨[MeasureItem.voiceItem ⟨[⟨4, false⟩], 4⟩], 4⟩),
       ("B", ⟨[MeasureItem.voiceItem ⟨[⟨durAttrNone, true⟩], durAttrNone⟩], durAttrNone⟩)]
      (some 3) =
      [("A", ⟨[MeasureItem.voiceItem ⟨[⟨4, false⟩], 4⟩], 4⟩),
       ("B", ⟨[MeasureItem.voiceItem ⟨[⟨4, false⟩], 4⟩], 4⟩)] :=
  ⟨by norm_num [durAttrNone],
   correctMRest_uses_longest_explicit 4 3 (by norm_num [durAttrNone])⟩

/-! ## `_barlineFromAttr` and the barline branch of `measureFromElement`
(base.py lines 1063-1084 and 2705-2726) -/

/-- A music21 `Barline` (with its style) or `Repeat` (with direction and the
optional `times` count) as built by `_barlineFromAttr`. -/
inductive BarObj where
  | barline (style : String)
  | repeatMark (direction : String) (times : Option ℕ)
deriving DecidableEq

/-- Embeds `_barlineFromAttr(attr)` from base.py: `rptboth` yields the pair
(end-repeat, start-repeat), `rptend` an end repeat played twice, any other
`rpt…` value a start repeat; everything else goes through `_attrTranslator`
with the barline table and may raise `MeiValueError`. -/
def _barlineFromAttr (attr : String) : Except PyErr (Sum BarObj (BarObj × BarObj)) :=
  if strStartsWith attr "rpt" then
    if attr = "rptboth" then
      Except.ok (Sum.inr (BarObj.repeatMark "end" (some 2), BarObj.repeatMark "start" none))
    else if attr = "rptend" then
      Except.ok (Sum.inl (BarObj.repeatMark "end" (some 2)))
    else
      Except.ok (Sum.inl (BarObj.repeatMark "start" none))
  else
    (_attrTranslator (some attr) "right" _BAR_ATTR_DICT).map
      (fun s => Sum.inl (BarObj.barline s))

/-- The per-staff `Measure` data that the barline branch of
`measureFromElement` can touch, plus its other fields (number and content are
carried along to state that they are untouched). -/
structure MeasureB where
  number : Int
  content : List String
  leftBarline : Option BarObj
  rightBarline : Option BarObj
deriving DecidableEq

/-- The value used when `@left` was `rptboth`: the code keeps `barz[1]`. -/
def leftBarlineChoice : Sum BarObj (BarObj × BarObj) → BarObj
  | Sum.inl b => b
  | Sum.inr p => p.2

/-- Embeds the barline branch of `measureFromElement` (base.py lines
2705-2726): an `@left` attribute is translated and assigned — as the source
comment explains, treating it like an `@right` — to every staff Measure's
`rightBarline`; an `@right` attribute is likewise assigned to every
`rightBarline`, with `rptboth` additionally producing the start repeat
returned for the *next* measure's left barline (the `'next @left'` entry). -/
def assignMeasureBarlines (leftAttr rightAttr : Option String)
    (staves : List (String × MeasureB)) :
    Except PyErr (List (String × MeasureB) × Option BarObj) := do
  let staves ←
    match leftAttr with
    | none => pure staves
    | some attr => do
      let barz0 ← _barlineFromAttr attr
      let barz := leftBarlineChoice barz0
      pure (staves.map (fun p => (p.1, { p.2 with rightBarline := some barz })))
  match rightAttr with
  | none => pure (staves, none)
  | some attr => do
    let barz0 ← _barlineFromAttr attr
    match barz0 with
    | Sum.inl b =>
      pure (staves.map (fun p => (p.1, { p.2 with rightBarline := some b })), none)
    | Sum.inr pair =>
      pure (staves.map (fun q => (q.1, { q.2 with rightBarline := some pair.1 })),
            some pair.2)

/-- Claim C10 (confirmed): a measure carrying an `@left` barline attribute
(and no `@right`) assigns the translated barline to every staff Measure's
*right* barline; every Measure's left barline, number and content are exactly
what they were before — in particular a left barline that was unset stays
unset — and nothing is queued for the next measure. -/
theorem measure_left_attr_sets_rightBarline (attr : String)
    (staves : List (String × MeasureB)) (b : Sum BarObj (BarObj × BarObj))
    (h : _barlineFromAttr attr = Except.ok b) :
    assignMeasureBarlines (some attr) none staves =
      Except.ok
        (staves.map (fun p =>
          (p.1, { p.2 with rightBarline := some (leftBarlineChoice b) })), none) ∧
    ∀ p : String × MeasureB, p ∈ staves →
      ({ p.2 with rightBarline := some (leftBarlineChoice b) } : MeasureB).leftBarline
          = p.2.leftBarline ∧
      ({ p.2 with rightBarline := some (leftBarlineChoice b) } : MeasureB).number
          = p.2.number ∧
      ({ p.2 with rightBarline := some (leftBarlineChoice b) } : MeasureB).content
          = p.2.content := by
  constructor
  · rw [assignMeasureBarlines]
    simp [h, Bind.bind, Except.bind, pure, Except.pure]
  · intro p _
    exact ⟨rfl, rfl, rfl⟩

/-- Witness for the C10 theorem: `@left="dbl"` on a measure with one staff
whose Measure has no barlines set — afterwards the right barline is the
translated double barline and the left barline is still unset. -/
theorem measure_left_attr_sets_rightBarline_witness :
    _barlineFromAttr "dbl" = Except.ok (Sum.inl (BarObj.barline "double")) ∧
    assignMeasureBarlines (some "dbl") none
      [("1", ⟨1, ["m1content"], none, none⟩)] =
      Except.ok ([("1", ⟨1, ["m1content"], none, some (BarObj.barline "double")⟩)], none) :=
  ⟨by decide,
   by
    have h := (measure_left_attr_sets_rightBarline "dbl"
      [("1", ⟨1, ["m1content"], none, none⟩)]
      (Sum.inl (BarObj.barline "double")) (by decide)).1
    rw [h]
    rfl⟩

/-! ## `MeiToM21Converter.__init__` (base.py lines 190-210)

XML parsing is out of scope (the source delegates to
`xml.etree.ElementTree.fromstring`), so the parser is a parameter: it returns
the root element of well-formed input and `none` where `fromstring` would
raise `ParseError`. -/

/-- A parsed document root: only its tag matters to `__init__`. -/
structure XRoot where
  tag : String
deriving DecidableEq

/-- The namespaced root tag required by the converter
(`_MEINS + 'mei'`). -/
def meiRootTag : String := "{http://www.music-encoding.org/ns/mei}mei"

/-- `_INVALID_XML_DOC` from base.py. -/
def _INVALID_XML_DOC : String := "MEI document is not valid XML."

/-- Embeds `MeiToM21Converter.__init__(theDocument)` (base.py lines 190-210):
no document yields a fresh empty `<mei>` root; a document that fails to parse
raises `MeiValidityError(_INVALID_XML_DOC)`; a document whose root tag is not
the fixed `<mei>` tag raises `MeiElementError` carrying the offending tag;
otherwise the parsed root is stored. -/
def meiToM21ConverterInit (parse : String → Option XRoot)
    (theDocument : Option String) : Except PyErr XRoot :=
  match theDocument with
  | none => Except.ok ⟨meiRootTag⟩
  | some doc =>
    match parse doc with
    | none => Except.error (PyErr.meiValidityError _INVALID_XML_DOC)
    | some root =>
      if root.tag ≠ meiRootTag then Except.error (PyErr.meiElementError root.tag)
      else Except.ok root

/-- Claim C7 (confirmed): unparsable text makes the entry point fail with the
validity-error kind; well-formed text with a wrong root element fails with
the element-error kind; the two kinds are distinct constructors, so the
caller can tell them apart; and in both cases no root (hence no Score) is
returned. -/
theorem meiInit_error_taxonomy (parse : String → Option XRoot) (doc : String) :
    (parse doc = none →
      meiToM21ConverterInit parse (some doc) =
        Except.error (PyErr.meiValidityError _INVALID_XML_DOC) ∧
      ∀ r, meiToM21ConverterInit parse (some doc) ≠ Except.ok r) ∧
    (∀ root, parse doc = some root → root.tag ≠ meiRootTag →
      meiToM21ConverterInit parse (some doc) =
        Except.error (PyErr.meiElementError root.tag) ∧
      ∀ r, meiToM21ConverterInit parse (some doc) ≠ Except.ok r) ∧
    (∀ m t, PyErr.meiValidityError m ≠ PyErr.meiElementError t) := by
  refine ⟨?_, ?_, ?_⟩
  · intro h
    constructor
    · simp [meiToM21ConverterInit, h]
    · intro r
      simp [meiToM21ConverterInit, h]
  · intro root h htag
    constructor
    · simp [meiToM21ConverterInit, h, htag]
    · intro r
      simp [meiToM21ConverterInit, h, htag]
  · intro m t
    exact fun hcon => PyErr.noConfusion hcon

/-- Witness for the C7 theorem: a parser that fails on the given text, and a
parser that returns a root with the wrong tag. -/
theorem meiInit_error_taxonomy_witness :
    meiToM21ConverterInit (fun _ => none) (some "not xml") =
      Except.error (PyErr.meiValidityError _INVALID_XML_DOC) ∧
    meiToM21ConverterInit (fun _ => some ⟨"html"⟩) (some "<html/>") =
      Except.error (PyErr.meiElementError "html") :=
  ⟨((meiInit_error_taxonomy (fun _ => none) "not xml").1 rfl).1,
   ((meiInit_error_taxonomy (fun _ => some ⟨"html"⟩) "<html/>").2.1
     ⟨"html"⟩ rfl (by decide)).1⟩

/-! ## `allPartsPresent` and the part ordering of `run` (base.py lines 221-353
and 418-464)

`allPartsPresent` scans the `@n` attributes of every `<staffDef>` in document
order (an element without `@n` contributes `None`, hence `Option String`),
keeping each value at its first appearance; `run` later builds the Score's
part sequence by iterating that tuple — not the keys of its internal `parsed`
dict — and the source comments on exactly that. -/

/-- The `for staffDef in …: if staffDef.get('n') not in partNs: append` loop
of `allPartsPresent`. -/
def allPartsPresentGo {α : Type} [DecidableEq α] (partNs : List α) :
    List α → List α
  | [] => partNs
  | n :: rest =>
    allPartsPresentGo (if n ∈ partNs then partNs else partNs ++ [n]) rest

/-- `_SEEMINGLY_NO_PARTS` from base.py. -/
def _SEEMINGLY_NO_PARTS : String :=
  "There appear to be no <staffDef> tags in this score."

/-- Embeds `allPartsPresent(theConverter)` (base.py lines 418-464), applied to
the document-order list of `@n` values of the `<staffDef>` elements: collect
first appearances, and raise `MeiValidityError` when there are none. -/
def allPartsPresent (staffDefNs : List (Option String)) :
    Except PyErr (List (Option String)) :=
  let partNs := allPartsPresentGo [] staffDefNs
  if partNs.length = 0 then
    Except.error (PyErr.meiValidityError _SEEMINGLY_NO_PARTS)
  else Except.ok partNs

/-- The spec's wording of the part order, as its own definition: each distinct
identifier at its first appearance in document order, later duplicates
removed. -/
def firstAppearances {α : Type} [DecidableEq α] : List α → List α
  | [] => []
  | x :: xs => x :: firstAppearances (xs.filter (fun y => y ≠ x))
termination_by l => l.length
decreasing_by
  simp only [List.length_cons, Nat.lt_succ_iff]
  exact List.length_filter_le _ _

/-- Embeds `parsed = [parsed[n] for n in allPartNs]` from `run` (base.py line
344): the Score's part sequence reads the internal table only through lookup,
in the order fixed by `allPartNs`. -/
def scorePartsFromTable {π : Type} (allPartNs : List (Option String))
    (parsed : List (Option String × π)) : List (Option π) :=
  allPartNs.map (fun n => assocLookup parsed n)

theorem mem_firstAppearances {α : Type} [DecidableEq α] (l : List α) (x : α) :
    x ∈ firstAppearances l ↔ x ∈ l := by
  induction l using firstAppearances.induct with
  | case1 => simp [firstAppearances]
  | case2 y ys ih =>
    rw [firstAppearances]
    simp only [List.mem_cons, ih, List.mem_filter, decide_eq_true_eq]
    constructor
    · rintro (h | ⟨h1, _⟩)
      · exact Or.inl h
      · exact Or.inr h1
    · intro h
      by_cases hxy : x = y
      · exact Or.inl hxy
      · rcases h with h | h
        · exact Or.inl h
        · exact Or.inr ⟨h, hxy⟩

theorem nodup_firstAppearances {α : Type} [DecidableEq α] (l : List α) :
    (firstAppearances l).Nodup := by
  induction l using firstAppearances.induct with
  | case1 => simp [firstAppearances]
  | case2 y ys ih =>
    rw [firstAppearances]
    refine List.Pairwise.cons (fun b hb => ?_) ih
    rw [mem_firstAppearances, List.mem_filter, decide_eq_true_eq] at hb
    exact fun hh => hb.2 hh.symm

/-- The position of the first occurrence of an identifier in the document
order list (its first-appearance index). -/
def firstIndexOf {α : Type} [DecidableEq α] : List α → α → ℕ
  | [], _ => 0
  | x :: xs, a => if x = a then 0 else firstIndexOf xs a + 1

theorem firstIndexOf_filter_lt {α : Type} [DecidableEq α] (p : α → Bool)
    (xs : List α) (a b : α)
    (ha : a ∈ xs.filter p) (hb : b ∈ xs.filter p)
    (h : firstIndexOf (xs.filter p) a < firstIndexOf (xs.filter p) b) :
    firstIndexOf xs a < firstIndexOf xs b := by
  induction xs with
  | nil => simp at ha
  | cons y ys ih =>
    by_cases hp : p y
    · rw [List.filter_cons_of_pos hp] at ha hb h
      by_cases hay : y = a
      · subst hay
        have hba : y ≠ b := by
          intro hba
          rw [firstIndexOf, if_pos rfl, firstIndexOf, if_pos hba] at h
          exact Nat.lt_irrefl 0 h
        rw [firstIndexOf, if_pos rfl, firstIndexOf, if_neg hba]
        exact Nat.succ_pos _
      · rw [firstIndexOf, if_neg hay] at h ⊢
        by_cases hby : y = b
        · rw [firstIndexOf, if_pos hby] at h
          exact absurd h (Nat.not_lt_zero _)
        · rw [firstIndexOf, if_neg hby] at h ⊢
          have ha2 : a ∈ ys.filter p := by
            rcases List.mem_cons.mp ha with h1 | h1
            · exact absurd h1.symm hay
            · exact h1
          have hb2 : b ∈ ys.filter p := by
            rcases List.mem_cons.mp hb with h1 | h1
            · exact absurd h1.symm hby
            · exact h1
          exact Nat.succ_lt_succ (ih ha2 hb2 (Nat.lt_of_succ_lt_succ h))
    · rw [List.filter_cons_of_neg hp] at ha hb h
      have hpa : p a = true := List.of_mem_filter ha
      have hpb : p b = true := List.of_mem_filter hb
      have hya : y ≠ a := fun hh => hp (hh ▸ hpa)
      have hyb : y ≠ b := fun hh => hp (hh ▸ hpb)
      rw [firstIndexOf, if_neg hya, firstIndexOf, if_neg hyb]
      exact Nat.succ_lt_succ (ih ha hb h)

theorem firstAppearances_pairwise_firstIndexOf {α : Type} [DecidableEq α]
    (l : List α) :
    (firstAppearances l).Pairwise (fun a b => firstIndexOf l a < firstIndexOf l b) := by
  induction l using firstAppearances.induct with
  | case1 => simp [firstAppearances]
  | case2 y ys ih =>
    rw [firstAppearances]
    refine List.Pairwise.cons (fun b hb => ?_) ?_
    · rw [mem_firstAppearances, List.mem_filter, decide_eq_true_eq] at hb
      rw [firstIndexOf, if_pos rfl, firstIndexOf, if_neg (fun hh => hb.2 hh.symm)]
      exact Nat.succ_pos _
    · refine List.Pairwise.imp_of_mem (fun {a b} hma hmb hab => ?_) ih
      rw [mem_firstAppearances] at hma hmb
      have ha2 := hma
      have hb2 := hmb
      rw [List.mem_filter, decide_eq_true_eq] at ha2 hb2
      have hstep := firstIndexOf_filter_lt _ ys a b hma hmb hab
      rw [firstIndexOf, if_neg (fun hh => ha2.2 hh.symm),
        firstIndexOf, if_neg (fun hh => hb2.2 hh.symm)]
      exact Nat.succ_lt_succ hstep

theorem allPartsPresentGo_eq_firstAppearances {α : Type} [DecidableEq α]
    (rest : List α) :
    ∀ partNs : List α,
      allPartsPresentGo partNs rest =
        partNs ++ firstAppearances (rest.filter (fun m => ¬ m ∈ partNs)) := by
  induction rest with
  | nil => intro partNs; simp [allPartsPresentGo, firstAppearances]
  | cons n rest ih =>
    intro partNs
    rw [allPartsPresentGo]
    by_cases hmem : n ∈ partNs
    · rw [if_pos hmem, ih, List.filter_cons_of_neg (by simp [hmem])]
    · rw [if_neg hmem, ih, List.filter_cons_of_pos (by simp [hmem])]
      rw [firstAppearances]
      have hfilter : rest.filter (fun m => ¬ m ∈ (partNs ++ [n])) =
          (rest.filter (fun m => ¬ m ∈ partNs)).filter (fun y => y ≠ n) := by
        rw [List.filter_filter]
        apply List.filter_congr
        intro x _
        by_cases h1 : x ∈ partNs
        · simp [h1]
        · by_cases h2 : x = n
          · simp [h1, h2]
          · simp [h1, h2]
      rw [hfilter]
      simp

/-- Claim C8 (confirmed): the finished Score's part sequence is built by
mapping the internal `parsed` table over `allPartNs`, so it is ordered exactly
by the first appearance, in document order, of each distinct staff identifier
among the `<staffDef>` elements — `allPartsPresentGo [] ns` equals the
spec-side `firstAppearances ns`, has no duplicates, contains exactly the
identifiers of the document, is sorted by first-appearance position, and the
resulting part sequence is independent of the internal table's own ordering —
and when the document has no `<staffDef>` at all, the fatal
`MeiValidityError(_SEEMINGLY_NO_PARTS)` is raised instead of a Score being
built. -/
theorem allPartsPresent_part_order (ns : List (Option String)) :
    (ns = [] →
      allPartsPresent ns =
        Except.error (PyErr.meiValidityError _SEEMINGLY_NO_PARTS)) ∧
    (ns ≠ [] → allPartsPresent ns = Except.ok (allPartsPresentGo [] ns)) ∧
    allPartsPresentGo [] ns = firstAppearances ns ∧
    (allPartsPresentGo [] ns).Nodup ∧
    (∀ x, x ∈ allPartsPresentGo [] ns ↔ x ∈ ns) ∧
    (allPartsPresentGo [] ns).Pairwise
      (fun a b => firstIndexOf ns a < firstIndexOf ns b) ∧
    (∀ (π : Type) (parsed₁ parsed₂ : List (Option String × π)),
      (∀ n, assocLookup parsed₁ n = assocLookup parsed₂ n) →
      scorePartsFromTable (allPartsPresentGo [] ns) parsed₁ =
        scorePartsFromTable (allPartsPresentGo [] ns) parsed₂) := by
  have hgoF : allPartsPresentGo ([] : List (Option String)) ns = firstAppearances ns := by
    rw [allPartsPresentGo_eq_firstAppearances]
    simp
  refine ⟨?_, ?_, hgoF, ?_, ?_, ?_, ?_⟩
  · intro h
    subst h
    rfl
  · intro h
    rw [allPartsPresent]
    have hne : ¬ (allPartsPresentGo ([] : List (Option String)) ns).length = 0 := by
      cases ns with
      | nil => exact absurd rfl h
      | cons n rest =>
        intro hlen
        rw [List.length_eq_zero] at hlen
        have : n ∈ allPartsPresentGo ([] : List (Option String)) (n :: rest) := by
          rw [hgoF, mem_firstAppearances]
          exact List.mem_cons_self _ _
        rw [hlen] at this
        exact List.not_mem_nil _ this
    simp [hne]
  · rw [hgoF]
    exact nodup_firstAppearances ns
  · intro x
    rw [hgoF]
    exact mem_firstAppearances ns x
  · rw [hgoF]
    exact firstAppearances_pairwise_firstIndexOf ns
  · intro π parsed₁ parsed₂ h
    have hfun : (fun n => assocLookup parsed₁ n) = (fun n => assocLookup parsed₂ n) :=
      funext h
    rw [scorePartsFromTable, scorePartsFromTable, hfun]

/-- Witness for the C8 theorem: staff identifiers appearing in document order
1, 2, 1, 3 produce the part order 1, 2, 3. -/
theorem allPartsPresent_part_order_witness :
    ([some "1", some "2", some "1", some "3"] : List (Option String)) ≠ [] ∧
    allPartsPresent [some "1", some "2", some "1", some "3"] =
      Except.ok [some "1", some "2", some "3"] :=
  ⟨by decide,
   by
    have h := (allPartsPresent_part_order
      [some "1", some "2", some "1", some "3"]).2.1 (by decide)
    rw [h]
    rfl⟩
